import Mathlib

/-!
Verification development for the adaptive traffic-light engine
(`adaptive_tls.py` and its drivers `mainoutput.py` / `adaptive_control.py`).

The engine is the class `AdaptiveTrafficLight`.  Its mutable state is the
per-vehicle history store `self.vehicles : {veh_id ↦ {'crossings': …,
'patterns': …}}`.  All interaction with the outside world goes through the
`traci` API (controlled lanes, vehicles on a lane, driven distance, vehicle
type, simulation time, phase index, time of next switch); we model one tick's
worth of those queries as a record `Env` of pure functions, since within a
single call of `control_logic` the simulation does not advance.

Numeric modelling: the Python floats coming from the simulation are modelled
as rationals (`ℚ`) in the state and environment, so that the state-updating
code stays executable; the derived scores (which use `log` and `sqrt`) are
modelled in `ℝ`.
-/

namespace PlusPath

/-- Approach direction of a vehicle: the engine only tracks the two axes
`'NS'` and `'EW'` (list `directions` in `control_logic`). -/
inductive Dir where
  | NS : Dir
  | EW : Dir
deriving DecidableEq, Repr

/-- One detected temporal cluster, `{'peak_start': …, 'peak_end': …,
'consistency': …}` in `_detect_patterns`.  The source stores the float
`consistency = 1 / (np.std(cluster) + 1e-6)`; to keep the state layer
executable we store the cluster's population variance (a rational) and
recover the stored value as `Pattern.consistency` below, which is the same
real number. -/
structure Pattern where
  peak_start : ℚ
  peak_end : ℚ
  var : ℚ
deriving DecidableEq, Repr

/-- The value `1 / (np.std(cluster) + 1e-6)` stored by `_detect_patterns`:
`var` is the population variance, so `np.std = Real.sqrt var`. -/
noncomputable def Pattern.consistency (p : Pattern) : ℝ :=
  1 / (Real.sqrt (p.var : ℝ) + 1e-6)

/-- Per-vehicle record `{'crossings': [...], 'patterns': ...}`.
`crossings` is the ordered list of `(time, direction)` pairs.  In the source
`patterns` is initialised to `None` and later replaced by a (possibly empty)
list; `None` and `[]` are observationally identical there (both are falsy in
`if hist['patterns']` and in `dict.get`), so we model both as `[]`. -/
structure VehicleRecord where
  crossings : List (ℚ × Dir)
  patterns : List Pattern
deriving DecidableEq, Repr

/-- The engine's mutable state: the dictionary `self.vehicles`.  (The
source's other instance fields are the id `tls_id`, the never-consulted
`emergency_log`, and the fixed numeric constants, modelled as top-level
definitions.) -/
structure TLState where
  vehicles : String → Option VehicleRecord

/-- The empty store `self.vehicles = {}` set up by `__init__`. -/
def stEmpty : TLState := ⟨fun _ => none⟩

/-- The record for a vehicle, with the fresh record
`{'crossings': [], 'patterns': None}` as default for an absent key. -/
def recOf (st : TLState) (v : String) : VehicleRecord :=
  (st.vehicles v).getD ⟨[], []⟩

/-- `self.vehicles[v] = r`. -/
def setRecord (st : TLState) (v : String) (r : VehicleRecord) : TLState :=
  ⟨fun w => if w = v then some r else st.vehicles w⟩

/-- The fixed weight `self.weights['frequency'] = 0.4`. -/
def frequency_weight : ℝ := 0.4

/-- The fixed weight `self.weights['recency'] = 0.3`. -/
def recency_weight : ℝ := 0.3

/-- The fixed weight `self.weights['consistency'] = 0.3`. -/
def consistency_weight : ℝ := 0.3

/-- The fixed constant `self.density_weight = 0.3`. -/
def density_weight : ℝ := 0.3

/-- The fixed constant `self.time_boost_factor = 0.5`. -/
def time_boost_factor : ℝ := 0.5

/-! ### One tick of external (traci) state -/

/-- The traci queries made during one tick, plus the two engine methods that
the source calls but never defines and that the spec assigns to the data
source (see the spec-modelled definitions below). -/
structure Env where
  /-- `traci.trafficlight.getControlledLanes(tls_id)`. -/
  controlledLanes : List String
  /-- `traci.lane.getLastStepVehicleIDs(lane)`. -/
  laneVehicles : String → List String
  /-- `traci.vehicle.getDistance(veh_id)`. -/
  vehicleDistance : String → ℚ
  /-- `traci.vehicle.getTypeID(veh_id)`. -/
  vehicleType : String → String
  /-- `traci.simulation.getTime()`. -/
  time : ℚ
  /-- `traci.trafficlight.getPhase(tls_id)`. -/
  currentPhase : ℤ
  /-- `traci.trafficlight.getNextSwitch(tls_id)`. -/
  nextSwitch : ℚ
  /-- Modelled from the spec: the engine calls `self.get_approach_direction`
  but that method is defined nowhere in the source; §6 of the spec lists
  `approachDirection(vehicleId) → enum{NS, EW}` as a Traffic Data Source
  query, so we model it as part of the environment. -/
  approachDirection : String → Dir
  /-- Modelled from the spec: the engine calls `self.get_current_direction`
  but that method is defined nowhere in the source; §4.5 of the spec says the
  active phase either "corresponds to a tracked direction" (`NS`/`EW`) or is
  a transition phase owned by the actuator, so we model the mapping from the
  reported phase index to an optional tracked direction as part of the
  environment. -/
  phaseDirection : ℤ → Option Dir

/-- `detect_vehicles`: every vehicle on a controlled lane whose driven
distance is below 50 (a vehicle appearing on two controlled lanes is, as in
the source's nested loop, listed twice). -/
def detectVehicles (env : Env) : List String :=
  env.controlledLanes.flatMap fun lane =>
    (env.laneVehicles lane).filter fun v => decide (env.vehicleDistance v < 50)

/-! ### DBSCAN clustering (the `sklearn.cluster.DBSCAN(eps=300, min_samples=3)`
call in `_detect_patterns`)

The source clusters the 1-dimensional list of crossing timestamps.  We model
DBSCAN's semantics directly on the list of points, identified by their index
(so duplicated timestamps are distinct points, as in the numpy array):

* `nbhd pts i` — indices within distance `eps` of point `i` (sklearn's
  neighbourhoods are closed balls, and include the point itself);
* `isCore pts i` — point `i` has at least `min_samples` neighbours;
* `componentCores pts i` — the connected component of core point `i` in the
  graph whose vertices are core points and whose edges join core points at
  distance at most `eps`, computed as an iterated expansion (after
  `pts.length` rounds the expansion is exhausted);
* `clusterOf pts i` — the cluster grown from that component: every point
  (core or border) within `eps` of one of its core points.  With
  `min_samples = 3` a non-core point has at most one neighbour besides
  itself, so a border point is adjacent to the cores of exactly one
  component and sklearn's assignment of border points is unambiguous;
* `clusterSeeds pts` — one canonical representative (the least core index)
  per component, so `dbscanClusters` lists each cluster once, in the order
  sklearn discovers them. -/

/-- DBSCAN neighbourhood radius: `eps=300`. -/
def eps : ℚ := 300

/-- DBSCAN minimum neighbourhood size: `min_samples=3`. -/
def minSamples : ℕ := 3

/-- Indices of the points within distance `eps` of point `i` (including `i`). -/
def nbhd (pts : List ℚ) (i : ℕ) : List ℕ :=
  (List.range pts.length).filter fun j =>
    decide (|pts.getD j 0 - pts.getD i 0| ≤ eps)

/-- A core point: at least `minSamples` points (itself included) in its
`eps`-neighbourhood. -/
def isCore (pts : List ℚ) (i : ℕ) : Bool :=
  decide (minSamples ≤ (nbhd pts i).length)

/-- One round of expansion: all core points within `eps` of the current set. -/
def expandCores (pts : List ℚ) (s : List ℕ) : List ℕ :=
  (List.range pts.length).filter fun j =>
    isCore pts j && s.any fun c => decide (|pts.getD j 0 - pts.getD c 0| ≤ eps)

/-- The core points of the connected component of core point `i`. -/
def componentCores (pts : List ℚ) (i : ℕ) : List ℕ :=
  (expandCores pts)^[pts.length] [i]

/-- The cluster grown from the component of core point `i`: all points within
`eps` of one of its cores. -/
def clusterOf (pts : List ℚ) (i : ℕ) : List ℕ :=
  (List.range pts.length).filter fun j =>
    (componentCores pts i).any fun c => decide (|pts.getD j 0 - pts.getD c 0| ≤ eps)

/-- The least core index of each component, used as that cluster's canonical
representative. -/
def clusterSeeds (pts : List ℚ) : List ℕ :=
  (List.range pts.length).filter fun i =>
    isCore pts i && (componentCores pts i).all fun j => decide (i ≤ j)

/-- The list of clusters produced by `DBSCAN(eps=300, min_samples=3)` on the
1-dimensional point list `pts` (the `clusters` list of `_detect_patterns`):
each cluster is the multiset of member timestamps; points assigned to no
cluster (noise, label `-1`) appear in none of them. -/
def dbscanClusters (pts : List ℚ) : List (List ℚ) :=
  (clusterSeeds pts).map fun i => (clusterOf pts i).map fun j => pts.getD j 0

/-- A point of `pts` that DBSCAN leaves unlabelled (noise): it is within
`eps` of no core point. -/
def noisePoint (pts : List ℚ) (j : ℕ) : Bool :=
  (List.range pts.length).all fun k =>
    !(isCore pts k && decide (|pts.getD j 0 - pts.getD k 0| ≤ eps))

/-! ### Pattern detection and the history store -/

/-- `np.min` of a (nonempty) cluster. -/
def listMinQ : List ℚ → ℚ
  | [] => 0
  | x :: xs => xs.foldl min x

/-- `np.max` of a (nonempty) cluster. -/
def listMaxQ : List ℚ → ℚ
  | [] => 0
  | x :: xs => xs.foldl max x

/-- The population variance of a list, so that `np.std l = Real.sqrt (popVar l)`
(numpy's default `ddof=0`). -/
def popVar (l : List ℚ) : ℚ :=
  ((l.map fun x => (x - l.sum / (l.length : ℚ)) ^ 2).sum) / (l.length : ℚ)

/-- The pattern `_detect_patterns` builds from one cluster:
`peak_start = np.min(cluster)`, `peak_end = np.max(cluster)`, and the stored
consistency `1 / (np.std(cluster) + 1e-6)` (recovered from `var` by
`Pattern.consistency`). -/
def mkPattern (c : List ℚ) : Pattern :=
  ⟨listMinQ c, listMaxQ c, popVar c⟩

/-- `_detect_patterns(veh_id)`: cluster the vehicle's full timestamp sequence
and replace its `patterns` entry wholesale with the freshly built list. -/
def detect_patterns (st : TLState) (v : String) : TLState :=
  let times := (recOf st v).crossings.map Prod.fst
  let patterns := (dbscanClusters times).map mkPattern
  setRecord st v { recOf st v with patterns := patterns }

/-- `update_vehicle_history(veh_id)`: append `(time, direction)` to the
vehicle's crossing list (creating the record if absent) and re-run pattern
detection when the updated crossing count is a multiple of 5.
`get_approach_direction` is modelled from the spec as `env.approachDirection`
(see `Env`). -/
def update_vehicle_history (env : Env) (st : TLState) (v : String) : TLState :=
  let direction := env.approachDirection v
  let time := env.time
  let rec1 : VehicleRecord :=
    { recOf st v with crossings := (recOf st v).crossings ++ [(time, direction)] }
  let st1 := setRecord st v rec1
  if rec1.crossings.length % 5 = 0 then detect_patterns st1 v else st1

/-! ### Scoring (real-valued) -/

/-- Python's `max` of a nonempty list (used for
`max(p['consistency'] for p in hist['patterns'])`). -/
noncomputable def listMaxR : List ℝ → ℝ
  | [] => 0
  | x :: xs => xs.foldl max x

/-- Python's `min` of a nonempty list (used for `min(time_diffs)`). -/
noncomputable def listMinR : List ℝ → ℝ
  | [] => 0
  | x :: xs => xs.foldl min x

/-- `hist['crossings'][-1][0]`: the timestamp of the last recorded crossing. -/
def lastCross (r : VehicleRecord) : ℚ :=
  match r.crossings.getLast? with
  | some c => c.1
  | none => 0

/-- The recency factor `1 / (1 + (current_time - last_time)/3600)` of
`calculate_priority`. -/
noncomputable def recencyFn (now last : ℝ) : ℝ :=
  1 / (1 + (now - last) / 3600)

/-- `calculate_priority(veh_id)`: 0 for an unknown vehicle or one with no
recorded crossing, otherwise the weighted sum of the log-scaled frequency
(`np.log1p(n) = log (1 + n)`), the recency factor, and the pattern
consistency term (neutral `0.5` when no patterns are stored). -/
noncomputable def calculate_priority (env : Env) (st : TLState) (v : String) : ℝ :=
  match st.vehicles v with
  | none => 0
  | some hist =>
    if hist.crossings = [] then 0
    else
      let n := hist.crossings.length
      let freq := Real.log (1 + (n : ℝ))
      let recency := recencyFn (env.time : ℝ) ((lastCross hist : ℚ) : ℝ)
      let consistency :=
        if hist.patterns = [] then 0.5
        else
          (listMaxR (hist.patterns.map Pattern.consistency)) /
            (1 + listMinR (hist.patterns.map fun p =>
              |(env.time : ℝ) - ((p.peak_start : ℚ) : ℝ)|))
      frequency_weight * freq + recency_weight * recency +
        consistency_weight * consistency

/-- Truthiness of `self.vehicles.get(veh_id, {}).get('patterns')`: a missing
record, a `None` patterns entry and an empty list are all falsy. -/
def vehHasPatterns (st : TLState) (v : String) : Bool :=
  match st.vehicles v with
  | none => false
  | some r => decide (r.patterns ≠ [])

/-- `get_direction_weight(direction)`: the sum of the priorities of the
in-range vehicles approaching in `direction`, plus `density_weight` times
their count, multiplied by `1 + time_boost_factor` when any in-range vehicle
(in any direction) has a non-empty pattern set. -/
noncomputable def get_direction_weight (env : Env) (st : TLState) (direction : Dir) : ℝ :=
  let vehicles := detectVehicles env
  let matching := vehicles.filter fun v => env.approachDirection v == direction
  let total := (matching.map (calculate_priority env st)).sum +
    density_weight * (matching.length : ℝ)
  if vehicles.any (fun v => vehHasPatterns st v) then
    total * (1 + time_boost_factor)
  else total

/-! ### The phase controller -/

/-- The command issued back to the actuator this tick.  `emergency` models
the spec's `preemptForEmergency` (the source's call to the missing
`handle_emergency`), `extend` the `setPhaseDuration` call, and `switch` the
spec's `switchToPhaseForDirection` (the source's call to the missing
`set_phase_for_direction`). -/
inductive Decision where
  | emergency : String → Decision
  | extend : ℝ → Decision
  | switch : Dir → Decision

/-- The bounded phase duration `max(15, min(60, 30 * (0.5 + normalized)))`
computed by `control_logic`, with the division `weight / total` inlined. -/
noncomputable def phase_duration (w total : ℝ) : ℝ :=
  max 15 (min 60 (30 * (0.5 + w / total)))

/-- Lookup in a two-entry dict `{'NS': xNS, 'EW': xEW}` by direction key
(used for `weights[...]` and `phase_durations[...]`). -/
def pickDir (xNS xEW : ℝ) : Dir → ℝ
  | Dir.NS => xNS
  | Dir.EW => xEW

/-- `control_logic()`: one tick of the engine.  The first in-range vehicle of
type `'emergency'` preempts everything (`handle_emergency` is modelled from
the spec as emitting `preemptForEmergency` for that vehicle).  Otherwise the
two direction weights are computed; if their sum is positive, the phase
either gets extended (when the reported phase maps to a tracked direction
whose remaining time is below its target duration), or — only on a
transition phase — switched to the heavier direction (`max` over the
insertion-ordered dict `{'NS': …, 'EW': …}` picks `EW` only on a strictly
greater weight).  The state is returned unchanged in every branch: the
source's `control_logic` never writes to `self.vehicles`. -/
noncomputable def control_logic (env : Env) (st : TLState) :
    Option Decision × TLState :=
  match (detectVehicles env).find? (fun v => env.vehicleType v == "emergency") with
  | some veh => (some (Decision.emergency veh), st)
  | none =>
    let wNS := get_direction_weight env st Dir.NS
    let wEW := get_direction_weight env st Dir.EW
    let total := wNS + wEW
    if 0 < total then
      match env.phaseDirection env.currentPhase with
      | some d =>
        let dur := pickDir (phase_duration wNS total) (phase_duration wEW total) d
        let remaining := ((env.nextSwitch : ℚ) : ℝ) - ((env.time : ℚ) : ℝ)
        if remaining < dur then (some (Decision.extend (dur - remaining)), st)
        else (none, st)
      | none => (some (Decision.switch (if wNS < wEW then Dir.EW else Dir.NS)), st)
    else (none, st)

/-- The clock invariant of the running system (spec §3: crossing timestamps
are "monotonic since timestamps come from a single advancing clock"): every
recorded crossing happened no later than the current tick's time. -/
def timeConsistent (env : Env) (st : TLState) : Prop :=
  ∀ v r, st.vehicles v = some r → r.crossings ≠ [] → lastCross r ≤ env.time

/-! ### Python attribute dispatch

The source calls four methods on `self` that no code in the repository
defines: `get_approach_direction`, `handle_emergency`,
`get_current_direction` and `set_phase_for_direction`.  In Python such a
call fails at attribute lookup with an `AttributeError` before the method
body would run.  To reason about this we record the method table of
`class AdaptiveTrafficLight` exactly as written in `adaptive_tls.py`, and
give a second reading of the per-tick entry points in an `Except` monad in
which every `self.<m>(...)` call first looks `m` up in that table. -/

/-- The methods `class AdaptiveTrafficLight` actually defines. -/
def definedMethods : List String :=
  ["__init__", "detect_vehicles", "update_vehicle_history", "_detect_patterns",
   "calculate_priority", "get_direction_weight", "control_logic"]

/-- Looking up `self.<m>`: succeeds iff `m` is in the class's method table,
otherwise raises `AttributeError`. -/
def callMethod (m : String) : Except String Unit :=
  if m ∈ definedMethods then Except.ok () else Except.error ("AttributeError: " ++ m)

/-- `get_direction_weight` with attribute dispatch: the first loop iteration
evaluates `self.get_approach_direction(veh_id)`, so with a non-empty
in-range vehicle list the lookup of that (undefined) attribute is reached;
with no in-range vehicle both loops and the `any` are empty and the method
returns the weight 0. -/
noncomputable def get_direction_weightE (env : Env) (st : TLState) (d : Dir) :
    Except String ℝ :=
  let vehicles := detectVehicles env
  if vehicles = [] then Except.ok (get_direction_weight env st d)
  else
    match callMethod ("get_approach_direction") with
    | Except.error e => Except.error e
    | Except.ok _ => Except.ok (get_direction_weight env st d)

/-- `control_logic` with attribute dispatch: the first in-range emergency
vehicle leads to the lookup of `self.handle_emergency`; otherwise the weight
computation runs (reaching `self.get_approach_direction` whenever a vehicle
is in range), and on a positive total the phase decision would additionally
look up `self.get_current_direction`.  `Except.ok` carries the decision this
tick would have produced had the lookups succeeded (as in the modelled
`control_logic`). -/
noncomputable def control_logicE (env : Env) (st : TLState) :
    Except String (Option Decision) :=
  match (detectVehicles env).find? (fun v => env.vehicleType v == "emergency") with
  | some _ =>
    (match callMethod ("handle_emergency") with
     | Except.error e => Except.error e
     | Except.ok _ => Except.ok (control_logic env st).1)
  | none =>
    match get_direction_weightE env st Dir.NS with
    | Except.error e => Except.error e
    | Except.ok wNS =>
      match get_direction_weightE env st Dir.EW with
      | Except.error e => Except.error e
      | Except.ok wEW =>
        if 0 < wNS + wEW then
          match callMethod ("get_current_direction") with
          | Except.error e => Except.error e
          | Except.ok _ => Except.ok (control_logic env st).1
        else Except.ok none

/-! ### Concrete single-tick environments used below -/

/-- A tick with no controlled lane, hence no vehicle in range. -/
def envNone : Env where
  controlledLanes := []
  laneVehicles := fun _ => []
  vehicleDistance := fun _ => 0
  vehicleType := fun _ => "car"
  time := 0
  currentPhase := 0
  nextSwitch := 30
  approachDirection := fun _ => Dir.NS
  phaseDirection := fun _ => none

/-- A tick with a single in-range non-emergency vehicle `v1` approaching NS,
while the light is on a transition phase. -/
def envOne : Env where
  controlledLanes := ["LN"]
  laneVehicles := fun l => if l = "LN" then ["v1"] else []
  vehicleDistance := fun _ => 10
  vehicleType := fun _ => "car"
  time := 0
  currentPhase := 0
  nextSwitch := 30
  approachDirection := fun _ => Dir.NS
  phaseDirection := fun _ => none

/-- A tick with one NS vehicle (`a`) and two EW vehicles (`b`, `c`) in range,
none an emergency, with the NS phase active and 30 seconds remaining. -/
def envBusy : Env where
  controlledLanes := ["LN", "LE"]
  laneVehicles := fun l => if l = "LN" then ["a"] else if l = "LE" then ["b", "c"] else []
  vehicleDistance := fun _ => 10
  vehicleType := fun _ => "car"
  time := 0
  currentPhase := 0
  nextSwitch := 30
  approachDirection := fun v => if v = "a" then Dir.NS else Dir.EW
  phaseDirection := fun _ => some Dir.NS

/-- As `envBusy`, but with only 10 seconds remaining in the NS phase. -/
def envShort : Env where
  controlledLanes := ["LN", "LE"]
  laneVehicles := fun l => if l = "LN" then ["a"] else if l = "LE" then ["b", "c"] else []
  vehicleDistance := fun _ => 10
  vehicleType := fun _ => "car"
  time := 0
  currentPhase := 0
  nextSwitch := 10
  approachDirection := fun v => if v = "a" then Dir.NS else Dir.EW
  phaseDirection := fun _ => some Dir.NS

/-- A store holding one vehicle `v1` with a single NS crossing at time 0 and
no patterns. -/
def stOne : TLState :=
  setRecord stEmpty ("v1") ⟨[(0, Dir.NS)], []⟩

/-- A tick with an ambulance (`amb`, of type `'emergency'`) behind `a` in NS
and a backlog `b`, `c` in EW. -/
def envEmerg : Env where
  controlledLanes := ["LN", "LE"]
  laneVehicles := fun l => if l = "LN" then ["a", "amb"] else if l = "LE" then ["b", "c"] else []
  vehicleDistance := fun _ => 10
  vehicleType := fun v => if v = "amb" then "emergency" else "car"
  time := 0
  currentPhase := 0
  nextSwitch := 30
  approachDirection := fun v => if v = "a" then Dir.NS else if v = "amb" then Dir.NS else Dir.EW
  phaseDirection := fun _ => some Dir.NS

/-! ## Helper lemmas -/

theorem le_foldl_max (l : List ℝ) (a : ℝ) : a ≤ l.foldl max a := by
  induction l generalizing a with
  | nil => exact le_refl a
  | cons x xs ih => exact le_trans (le_max_left a x) (ih (max a x))

theorem listMaxR_nonneg {l : List ℝ} (hne : l ≠ []) (h : ∀ x ∈ l, 0 ≤ x) :
    0 ≤ listMaxR l := by
  cases l with
  | nil => exact absurd rfl hne
  | cons x xs =>
    exact le_trans (h x (List.mem_cons_self x xs)) (le_foldl_max xs x)

theorem foldl_min_nonneg {l : List ℝ} {a : ℝ} (ha : 0 ≤ a) (h : ∀ x ∈ l, 0 ≤ x) :
    0 ≤ l.foldl min a := by
  induction l generalizing a with
  | nil => exact ha
  | cons x xs ih =>
    exact ih (le_min ha (h x (List.mem_cons_self x xs)))
      (fun y hy => h y (List.mem_cons_of_mem x hy))

theorem listMinR_nonneg {l : List ℝ} (h : ∀ x ∈ l, 0 ≤ x) : 0 ≤ listMinR l := by
  cases l with
  | nil => exact le_refl 0
  | cons x xs =>
    exact foldl_min_nonneg (h x (List.mem_cons_self x xs))
      (fun y hy => h y (List.mem_cons_of_mem x hy))

theorem pattern_consistency_nonneg (p : Pattern) : 0 ≤ p.consistency := by
  unfold Pattern.consistency
  positivity

theorem recencyFn_pos {now last : ℝ} (h : last ≤ now) : 0 < recencyFn now last := by
  unfold recencyFn
  have h0 : (0:ℝ) ≤ now - last := sub_nonneg.mpr h
  have hd : (0:ℝ) < 1 + (now - last) / 3600 := by
    have h1 : (0:ℝ) ≤ (now - last) / 3600 := by positivity
    linarith
  exact one_div_pos.mpr hd

theorem control_logic_snd (env : Env) (st : TLState) : (control_logic env st).2 = st := by
  simp only [control_logic]
  split
  · rfl
  · split
    · split
      · split <;> rfl
      · rfl
    · rfl

theorem calculate_priority_none {env : Env} {st : TLState} {v : String}
    (h : st.vehicles v = none) : calculate_priority env st v = 0 := by
  simp only [calculate_priority, h]

theorem calculate_priority_empty {env : Env} {st : TLState} {v : String}
    {r : VehicleRecord} (h : st.vehicles v = some r) (hc : r.crossings = []) :
    calculate_priority env st v = 0 := by
  simp only [calculate_priority, h]
  rw [if_pos hc]

theorem calculate_priority_eq {env : Env} {st : TLState} {v : String}
    {r : VehicleRecord} (h : st.vehicles v = some r) (hc : r.crossings ≠ []) :
    calculate_priority env st v =
      frequency_weight * Real.log (1 + (r.crossings.length : ℝ)) +
      recency_weight * recencyFn ((env.time : ℚ) : ℝ) ((lastCross r : ℚ) : ℝ) +
      consistency_weight *
        (if r.patterns = [] then 0.5
         else (listMaxR (r.patterns.map Pattern.consistency)) /
           (1 + listMinR (r.patterns.map fun p =>
             |((env.time : ℚ) : ℝ) - ((p.peak_start : ℚ) : ℝ)|))) := by
  simp only [calculate_priority, h]
  rw [if_neg hc]

theorem consistency_term_nonneg (env : Env) (r : VehicleRecord) :
    0 ≤ (if r.patterns = [] then (0.5:ℝ)
         else (listMaxR (r.patterns.map Pattern.consistency)) /
           (1 + listMinR (r.patterns.map fun p =>
             |((env.time : ℚ) : ℝ) - ((p.peak_start : ℚ) : ℝ)|))) := by
  split_ifs with hp
  · norm_num
  · apply div_nonneg
    · apply listMaxR_nonneg
      · simpa [List.map_eq_nil_iff] using hp
      · intro x hx
        rcases List.mem_map.1 hx with ⟨p, _, rfl⟩
        exact pattern_consistency_nonneg p
    · have h0 : 0 ≤ listMinR (r.patterns.map fun p =>
          |((env.time : ℚ) : ℝ) - ((p.peak_start : ℚ) : ℝ)|) := by
        apply listMinR_nonneg
        intro x hx
        rcases List.mem_map.1 hx with ⟨p, _, rfl⟩
        exact abs_nonneg _
      linarith

theorem calculate_priority_nonneg (env : Env) (st : TLState) (v : String)
    (h : ∀ r, st.vehicles v = some r → r.crossings ≠ [] → lastCross r ≤ env.time) :
    0 ≤ calculate_priority env st v := by
  cases hv : st.vehicles v with
  | none => rw [calculate_priority_none hv]
  | some r =>
    by_cases hc : r.crossings = []
    · rw [calculate_priority_empty hv hc]
    · rw [calculate_priority_eq hv hc]
      have hlast : ((lastCross r : ℚ) : ℝ) ≤ ((env.time : ℚ) : ℝ) := by
        exact_mod_cast h r hv hc
      have h1 : 0 ≤ Real.log (1 + (r.crossings.length : ℝ)) := by
        apply Real.log_nonneg
        have := Nat.cast_nonneg (α := ℝ) r.crossings.length
        linarith
      have h2 : 0 ≤ recencyFn ((env.time : ℚ) : ℝ) ((lastCross r : ℚ) : ℝ) :=
        le_of_lt (recencyFn_pos hlast)
      have h3 := consistency_term_nonneg env r
      have hf : (0:ℝ) ≤ frequency_weight := by norm_num [frequency_weight]
      have hr : (0:ℝ) ≤ recency_weight := by norm_num [recency_weight]
      have hcw : (0:ℝ) ≤ consistency_weight := by norm_num [consistency_weight]
      have := mul_nonneg hf h1
      have := mul_nonneg hr h2
      have := mul_nonneg hcw h3
      linarith

theorem gdw_detect_nil {env : Env} (st : TLState) (d : Dir)
    (h : detectVehicles env = []) : get_direction_weight env st d = 0 := by
  simp only [get_direction_weight, h]
  simp [density_weight]

theorem gdw_nonneg (env : Env) (st : TLState) (d : Dir)
    (h : timeConsistent env st) : 0 ≤ get_direction_weight env st d := by
  simp only [get_direction_weight]
  have hbase : 0 ≤ (((detectVehicles env).filter fun v =>
        env.approachDirection v == d).map (calculate_priority env st)).sum +
      density_weight * ((((detectVehicles env).filter fun v =>
        env.approachDirection v == d).length : ℕ) : ℝ) := by
    apply add_nonneg
    · apply List.sum_nonneg
      intro x hx
      rcases List.mem_map.1 hx with ⟨v, _, rfl⟩
      exact calculate_priority_nonneg env st v (fun r hr hc => h v r hr hc)
    · have : (0:ℝ) ≤ density_weight := by norm_num [density_weight]
      positivity
  split_ifs with hb
  · apply mul_nonneg hbase
    norm_num [time_boost_factor]
  · exact hbase

theorem priority_stEmpty (env : Env) (v : String) :
    calculate_priority env stEmpty v = 0 := rfl

theorem gdw_stEmpty (env : Env) (d : Dir) :
    get_direction_weight env stEmpty d =
      density_weight *
        ((((detectVehicles env).filter fun v => env.approachDirection v == d).length : ℕ) : ℝ) := by
  simp only [get_direction_weight]
  have hany : ((detectVehicles env).any fun v => vehHasPatterns stEmpty v) = false := by
    simp [vehHasPatterns, stEmpty]
  rw [hany]
  have hsum : (((detectVehicles env).filter fun v =>
      env.approachDirection v == d).map (calculate_priority env stEmpty)).sum = 0 :=
    List.sum_eq_zero (fun x hx => by
      rcases List.mem_map.1 hx with ⟨v, _, rfl⟩
      exact priority_stEmpty env v)
  simp [hsum]

theorem mem_expandCores {pts : List ℚ} {s : List ℕ} {j : ℕ} :
    j ∈ expandCores pts s ↔
      j ∈ List.range pts.length ∧ isCore pts j = true ∧
        ∃ c ∈ s, |pts.getD j 0 - pts.getD c 0| ≤ eps := by
  simp [expandCores, List.mem_filter, List.any_eq_true, and_assoc]

theorem self_mem_expandCores {pts : List ℚ} {s : List ℕ} {i : ℕ}
    (hlen : i < pts.length) (hcore : isCore pts i = true) (hs : i ∈ s) :
    i ∈ expandCores pts s := by
  rw [mem_expandCores]
  refine ⟨List.mem_range.2 hlen, hcore, ⟨i, hs, ?_⟩⟩
  norm_num [eps]

theorem mem_componentCores_self {pts : List ℚ} {i : ℕ}
    (hlen : i < pts.length) (hcore : isCore pts i = true) :
    i ∈ componentCores pts i := by
  unfold componentCores
  generalize pts.length = n
  induction n with
  | zero => exact List.mem_singleton.2 rfl
  | succ n ih =>
    rw [Function.iterate_succ_apply']
    exact self_mem_expandCores hlen hcore ih

theorem componentCores_core {pts : List ℚ} {i j : ℕ} (hpos : 0 < pts.length)
    (hj : j ∈ componentCores pts i) : j < pts.length ∧ isCore pts j = true := by
  unfold componentCores at hj
  obtain ⟨k, hk⟩ := Nat.exists_eq_succ_of_ne_zero (Nat.pos_iff_ne_zero.1 hpos)
  rw [hk, Function.iterate_succ_apply', mem_expandCores] at hj
  exact ⟨List.mem_range.1 hj.1, hj.2.1⟩

theorem mem_clusterOf {pts : List ℚ} {i j : ℕ} :
    j ∈ clusterOf pts i ↔
      j ∈ List.range pts.length ∧
        ∃ c ∈ componentCores pts i, |pts.getD j 0 - pts.getD c 0| ≤ eps := by
  simp [clusterOf, List.mem_filter, List.any_eq_true]

theorem mem_clusterSeeds {pts : List ℚ} {i : ℕ} :
    i ∈ clusterSeeds pts ↔
      i ∈ List.range pts.length ∧ isCore pts i = true ∧
        ∀ j ∈ componentCores pts i, i ≤ j := by
  simp [clusterSeeds, List.mem_filter, List.all_eq_true, and_assoc]

theorem nbhd_sublist_clusterOf {pts : List ℚ} {i : ℕ}
    (hlen : i < pts.length) (hcore : isCore pts i = true) :
    List.Sublist (nbhd pts i) (clusterOf pts i) := by
  apply List.monotone_filter_right
  intro j hj
  have hm := mem_componentCores_self hlen hcore
  simp only [List.any_eq_true]
  exact ⟨i, hm, hj⟩

theorem clusterOf_length {pts : List ℚ} {i : ℕ} (hi : i ∈ clusterSeeds pts) :
    3 ≤ (clusterOf pts i).length := by
  rw [mem_clusterSeeds] at hi
  have hlen := List.mem_range.1 hi.1
  have hnb : minSamples ≤ (nbhd pts i).length := of_decide_eq_true hi.2.1
  have hsub := List.Sublist.length_le (nbhd_sublist_clusterOf hlen hi.2.1)
  exact le_trans hnb hsub

theorem clusterOf_member_near_core {pts : List ℚ} {i j : ℕ}
    (hi : i ∈ clusterSeeds pts) (hj : j ∈ clusterOf pts i) :
    j < pts.length ∧
      ∃ k, k < pts.length ∧ isCore pts k = true ∧
        |pts.getD j 0 - pts.getD k 0| ≤ eps := by
  rw [mem_clusterSeeds] at hi
  have hpos : 0 < pts.length := lt_of_le_of_lt (Nat.zero_le i) (List.mem_range.1 hi.1)
  rw [mem_clusterOf] at hj
  obtain ⟨hjr, c, hc, hdist⟩ := hj
  obtain ⟨hclen, hccore⟩ := componentCores_core hpos hc
  exact ⟨List.mem_range.1 hjr, c, hclen, hccore, hdist⟩

theorem not_noise_of_near_core {pts : List ℚ} {j k : ℕ} (hk : k < pts.length)
    (hcore : isCore pts k = true) (hdist : |pts.getD j 0 - pts.getD k 0| ≤ eps) :
    noisePoint pts j = false := by
  rw [noisePoint]
  rw [← Bool.not_eq_true]
  intro hall
  rw [List.all_eq_true] at hall
  have h2 := hall k (List.mem_range.2 hk)
  simp only [hcore, Bool.true_and, Bool.not_eq_true', decide_eq_false_iff_not] at h2
  exact h2 hdist

theorem recOf_setRecord_self (st : TLState) (v : String) (r : VehicleRecord) :
    recOf (setRecord st v r) v = r := by
  simp [recOf, setRecord]

theorem setRecord_other (st : TLState) (v w : String) (r : VehicleRecord)
    (h : w ≠ v) : (setRecord st v r).vehicles w = st.vehicles w := by
  simp [setRecord, h]

theorem detect_patterns_self (st : TLState) (v : String) :
    recOf (detect_patterns st v) v =
      { recOf st v with
        patterns := (dbscanClusters ((recOf st v).crossings.map Prod.fst)).map mkPattern } := by
  simp only [detect_patterns]
  rw [recOf_setRecord_self]

theorem detect_patterns_other (st : TLState) (v w : String) (h : w ≠ v) :
    (detect_patterns st v).vehicles w = st.vehicles w := by
  simp only [detect_patterns]
  exact setRecord_other _ _ _ _ h

theorem detect_patterns_crossings (st : TLState) (v w : String) :
    (recOf (detect_patterns st v) w).crossings = (recOf st w).crossings := by
  by_cases h : w = v
  · subst h
    rw [detect_patterns_self]
  · unfold recOf
    rw [detect_patterns_other st v w h]

theorem update_crossings_self (env : Env) (st : TLState) (v : String) :
    (recOf (update_vehicle_history env st v) v).crossings
      = (recOf st v).crossings ++ [(env.time, env.approachDirection v)] := by
  simp only [update_vehicle_history]
  split_ifs with h
  · rw [detect_patterns_crossings, recOf_setRecord_self]
  · rw [recOf_setRecord_self]

theorem update_other (env : Env) (st : TLState) (v w : String) (h : w ≠ v) :
    (update_vehicle_history env st v).vehicles w = st.vehicles w := by
  simp only [update_vehicle_history]
  split_ifs with hif
  · rw [detect_patterns_other _ _ _ h, setRecord_other _ _ _ _ h]
  · exact setRecord_other _ _ _ _ h

theorem update_patterns_self (env : Env) (st : TLState) (v : String) :
    (recOf (update_vehicle_history env st v) v).patterns =
      if ((recOf st v).crossings.length + 1) % 5 = 0
      then (dbscanClusters (((recOf st v).crossings
          ++ [(env.time, env.approachDirection v)]).map Prod.fst)).map mkPattern
      else (recOf st v).patterns := by
  simp only [update_vehicle_history, List.length_append, List.length_cons,
    List.length_nil, zero_add]
  split_ifs with h
  · rw [detect_patterns_self, recOf_setRecord_self]
  · rw [recOf_setRecord_self]

/-! ### Concrete DBSCAN evaluation on the point list `[0, 100, 200]`
(rational arithmetic is `@[irreducible]`, so these go through `norm_num`). -/

theorem coreW0 : isCore [0, 100, 200] 0 = true := by
  norm_num [isCore, minSamples, nbhd, eps, List.filter_cons, List.filter_nil, List.range_succ]

theorem coreW1 : isCore [0, 100, 200] 1 = true := by
  norm_num [isCore, minSamples, nbhd, eps, List.filter_cons, List.filter_nil, List.range_succ]

theorem coreW2 : isCore [0, 100, 200] 2 = true := by
  norm_num [isCore, minSamples, nbhd, eps, List.filter_cons, List.filter_nil, List.range_succ]

theorem expW0 : expandCores [0, 100, 200] [0] = [0, 1, 2] := by
  norm_num [expandCores, eps, coreW0, coreW1, coreW2, List.filter_cons, List.filter_nil,
    List.range_succ, List.any_cons, List.any_nil]

theorem expW012 : expandCores [0, 100, 200] [0, 1, 2] = [0, 1, 2] := by
  norm_num [expandCores, eps, coreW0, coreW1, coreW2, List.filter_cons, List.filter_nil,
    List.range_succ, List.any_cons, List.any_nil]

theorem compW0 : componentCores [0, 100, 200] 0 = [0, 1, 2] := by
  have h : componentCores [0, 100, 200] 0
      = expandCores [0, 100, 200]
          (expandCores [0, 100, 200] (expandCores [0, 100, 200] [0])) := rfl
  rw [h, expW0, expW012, expW012]

theorem compW1 : componentCores [0, 100, 200] 1 = [0, 1, 2] := by
  have h : componentCores [0, 100, 200] 1
      = expandCores [0, 100, 200]
          (expandCores [0, 100, 200] (expandCores [0, 100, 200] [1])) := rfl
  have e1 : expandCores [0, 100, 200] [1] = [0, 1, 2] := by
    norm_num [expandCores, eps, coreW0, coreW1, coreW2, List.filter_cons, List.filter_nil,
      List.range_succ, List.any_cons, List.any_nil]
  rw [h, e1, expW012, expW012]

theorem compW2 : componentCores [0, 100, 200] 2 = [0, 1, 2] := by
  have h : componentCores [0, 100, 200] 2
      = expandCores [0, 100, 200]
          (expandCores [0, 100, 200] (expandCores [0, 100, 200] [2])) := rfl
  have e1 : expandCores [0, 100, 200] [2] = [0, 1, 2] := by
    norm_num [expandCores, eps, coreW0, coreW1, coreW2, List.filter_cons, List.filter_nil,
      List.range_succ, List.any_cons, List.any_nil]
  rw [h, e1, expW012, expW012]

theorem seedsW : clusterSeeds [0, 100, 200] = [0] := by
  norm_num [clusterSeeds, coreW0, coreW1, coreW2, compW0, compW1, compW2, List.filter_cons,
    List.filter_nil, List.range_succ, List.all_cons, List.all_nil]

theorem clusterOfW : clusterOf [0, 100, 200] 0 = [0, 1, 2] := by
  norm_num [clusterOf, compW0, eps, List.filter_cons, List.filter_nil, List.range_succ,
    List.any_cons, List.any_nil]

theorem dbscanW : dbscanClusters [0, 100, 200] = [[0, 100, 200]] := by
  norm_num [dbscanClusters, seedsW, clusterOfW]

theorem control_logic_emergency_eq {env : Env} (st : TLState) {v : String}
    (h : (detectVehicles env).find? (fun u => env.vehicleType u == "emergency") = some v) :
    control_logic env st = (some (Decision.emergency v), st) := by
  simp only [control_logic, h]

theorem control_logic_zero_eq {env : Env} (st : TLState)
    (h : (detectVehicles env).find? (fun u => env.vehicleType u == "emergency") = none)
    (h2 : ¬ 0 < get_direction_weight env st Dir.NS + get_direction_weight env st Dir.EW) :
    control_logic env st = (none, st) := by
  simp only [control_logic, h]
  rw [if_neg h2]

theorem control_logic_transition_eq {env : Env} (st : TLState)
    (h : (detectVehicles env).find? (fun u => env.vehicleType u == "emergency") = none)
    (h2 : 0 < get_direction_weight env st Dir.NS + get_direction_weight env st Dir.EW)
    (h3 : env.phaseDirection env.currentPhase = none) :
    control_logic env st =
      (some (Decision.switch
        (if get_direction_weight env st Dir.NS < get_direction_weight env st Dir.EW
         then Dir.EW else Dir.NS)), st) := by
  simp only [control_logic, h]
  rw [if_pos h2, h3]

theorem control_logic_tracked_eq {env : Env} (st : TLState) {d : Dir}
    (h : (detectVehicles env).find? (fun u => env.vehicleType u == "emergency") = none)
    (h2 : 0 < get_direction_weight env st Dir.NS + get_direction_weight env st Dir.EW)
    (h3 : env.phaseDirection env.currentPhase = some d) :
    control_logic env st =
      (if ((env.nextSwitch : ℚ) : ℝ) - ((env.time : ℚ) : ℝ) <
          pickDir
            (phase_duration (get_direction_weight env st Dir.NS)
              (get_direction_weight env st Dir.NS + get_direction_weight env st Dir.EW))
            (phase_duration (get_direction_weight env st Dir.EW)
              (get_direction_weight env st Dir.NS + get_direction_weight env st Dir.EW)) d
       then
        (some (Decision.extend
          (pickDir
            (phase_duration (get_direction_weight env st Dir.NS)
              (get_direction_weight env st Dir.NS + get_direction_weight env st Dir.EW))
            (phase_duration (get_direction_weight env st Dir.EW)
              (get_direction_weight env st Dir.NS + get_direction_weight env st Dir.EW)) d -
           (((env.nextSwitch : ℚ) : ℝ) - ((env.time : ℚ) : ℝ)))), st)
       else (none, st)) := by
  simp only [control_logic, h]
  rw [if_pos h2]
  simp only [h3]

theorem control_logic_extend_eq {env : Env} (st : TLState) {d : Dir}
    (h : (detectVehicles env).find? (fun u => env.vehicleType u == "emergency") = none)
    (h2 : 0 < get_direction_weight env st Dir.NS + get_direction_weight env st Dir.EW)
    (h3 : env.phaseDirection env.currentPhase = some d)
    (h4 : ((env.nextSwitch : ℚ) : ℝ) - ((env.time : ℚ) : ℝ) <
      pickDir
        (phase_duration (get_direction_weight env st Dir.NS)
          (get_direction_weight env st Dir.NS + get_direction_weight env st Dir.EW))
        (phase_duration (get_direction_weight env st Dir.EW)
          (get_direction_weight env st Dir.NS + get_direction_weight env st Dir.EW)) d) :
    control_logic env st =
      (some (Decision.extend
        (pickDir
          (phase_duration (get_direction_weight env st Dir.NS)
            (get_direction_weight env st Dir.NS + get_direction_weight env st Dir.EW))
          (phase_duration (get_direction_weight env st Dir.EW)
            (get_direction_weight env st Dir.NS + get_direction_weight env st Dir.EW)) d -
         (((env.nextSwitch : ℚ) : ℝ) - ((env.time : ℚ) : ℝ)))), st) := by
  rw [control_logic_tracked_eq st h h2 h3, if_pos h4]

theorem control_logic_noop_eq {env : Env} (st : TLState) {d : Dir}
    (h : (detectVehicles env).find? (fun u => env.vehicleType u == "emergency") = none)
    (h2 : 0 < get_direction_weight env st Dir.NS + get_direction_weight env st Dir.EW)
    (h3 : env.phaseDirection env.currentPhase = some d)
    (h4 : pickDir
        (phase_duration (get_direction_weight env st Dir.NS)
          (get_direction_weight env st Dir.NS + get_direction_weight env st Dir.EW))
        (phase_duration (get_direction_weight env st Dir.EW)
          (get_direction_weight env st Dir.NS + get_direction_weight env st Dir.EW)) d ≤
      ((env.nextSwitch : ℚ) : ℝ) - ((env.time : ℚ) : ℝ)) :
    control_logic env st = (none, st) := by
  rw [control_logic_tracked_eq st h h2 h3, if_neg (not_lt.2 h4)]

/-! ### Evaluating the concrete environments -/

theorem detect_envNone : detectVehicles envNone = [] := rfl

theorem detect_envOne : detectVehicles envOne = ["v1"] := rfl

theorem detect_envBusy : detectVehicles envBusy = ["a", "b", "c"] := rfl

theorem find_envOne :
    (detectVehicles envOne).find? (fun u => envOne.vehicleType u == "emergency") = none := rfl

theorem find_envBusy :
    (detectVehicles envBusy).find? (fun u => envBusy.vehicleType u == "emergency") = none := rfl

theorem find_envShort :
    (detectVehicles envShort).find? (fun u => envShort.vehicleType u == "emergency") = none := rfl

theorem find_envEmerg :
    (detectVehicles envEmerg).find? (fun u => envEmerg.vehicleType u == "emergency")
      = some ("amb") := rfl

theorem wNS_envBusy : get_direction_weight envBusy stEmpty Dir.NS = 0.3 := by
  rw [gdw_stEmpty,
    show ((detectVehicles envBusy).filter fun v => envBusy.approachDirection v == Dir.NS)
      = ["a"] from rfl]
  norm_num [density_weight]

theorem wEW_envBusy : get_direction_weight envBusy stEmpty Dir.EW = 0.6 := by
  rw [gdw_stEmpty,
    show ((detectVehicles envBusy).filter fun v => envBusy.approachDirection v == Dir.EW)
      = ["b", "c"] from rfl]
  norm_num [density_weight]

theorem wNS_envShort : get_direction_weight envShort stEmpty Dir.NS = 0.3 := by
  rw [gdw_stEmpty,
    show ((detectVehicles envShort).filter fun v => envShort.approachDirection v == Dir.NS)
      = ["a"] from rfl]
  norm_num [density_weight]

theorem wEW_envShort : get_direction_weight envShort stEmpty Dir.EW = 0.6 := by
  rw [gdw_stEmpty,
    show ((detectVehicles envShort).filter fun v => envShort.approachDirection v == Dir.EW)
      = ["b", "c"] from rfl]
  norm_num [density_weight]

theorem wNS_envOne : get_direction_weight envOne stEmpty Dir.NS = 0.3 := by
  rw [gdw_stEmpty,
    show ((detectVehicles envOne).filter fun v => envOne.approachDirection v == Dir.NS)
      = ["v1"] from rfl]
  norm_num [density_weight]

theorem wEW_envOne : get_direction_weight envOne stEmpty Dir.EW = 0 := by
  rw [gdw_stEmpty,
    show ((detectVehicles envOne).filter fun v => envOne.approachDirection v == Dir.EW)
      = [] from rfl]
  norm_num [density_weight]

theorem pd_busy : phase_duration 0.3 (0.3 + 0.6) = 25 := by
  have h : (30:ℝ) * (0.5 + 0.3 / (0.3 + 0.6)) = 25 := by norm_num
  rw [phase_duration, h, min_eq_right (by norm_num : (25:ℝ) ≤ 60),
    max_eq_right (by norm_num : (15:ℝ) ≤ 25)]

/-! ## Claims -/

/-- C1: the claim states that on every tick each in-range vehicle first has a
crossing appended to its record (possibly triggering re-clustering) and only
then are weights computed and the phase decision issued.  The code has no
such step: `control_logic` never calls `update_vehicle_history`, so the
vehicle store is returned unchanged on every tick.  Concretely, on the tick
`envOne` a vehicle `v1` is in range and a phase decision is issued from the
computed weights, yet no record for `v1` is ever created, let alone a
crossing appended. -/
theorem claim_C1_no_history_update_per_tick :
    (∀ env st, (control_logic env st).2 = st) ∧
    detectVehicles envOne = ["v1"] ∧
    (control_logic envOne stEmpty).1 = some (Decision.switch Dir.NS) ∧
    (control_logic envOne stEmpty).2.vehicles ("v1") = none := by
  refine ⟨control_logic_snd, detect_envOne, ?_, ?_⟩
  · have h2 : 0 < get_direction_weight envOne stEmpty Dir.NS
        + get_direction_weight envOne stEmpty Dir.EW := by
      rw [wNS_envOne, wEW_envOne]; norm_num
    rw [control_logic_transition_eq stEmpty find_envOne h2 rfl]
    rw [wNS_envOne, wEW_envOne]
    norm_num
  · rw [control_logic_snd]
    rfl

/-- C2 counterexample: the claim states that when the active phase is a
tracked direction whose remaining time already meets or exceeds the computed
duration, the engine switches to the direction with the higher weight.  On
the tick `envBusy` every condition of that clause holds (no emergency,
positive total, NS phase active, remaining 30 s ≥ duration 25 s, EW strictly
heavier), yet the code emits no decision at all: the `else` of
`remaining < phase_durations[current_direction]` does nothing. -/
theorem claim_C2_counterexample :
    (detectVehicles envBusy).find? (fun u => envBusy.vehicleType u == "emergency") = none ∧
    0 < get_direction_weight envBusy stEmpty Dir.NS
      + get_direction_weight envBusy stEmpty Dir.EW ∧
    envBusy.phaseDirection envBusy.currentPhase = some Dir.NS ∧
    get_direction_weight envBusy stEmpty Dir.NS
      < get_direction_weight envBusy stEmpty Dir.EW ∧
    phase_duration (get_direction_weight envBusy stEmpty Dir.NS)
        (get_direction_weight envBusy stEmpty Dir.NS
          + get_direction_weight envBusy stEmpty Dir.EW)
      ≤ ((envBusy.nextSwitch : ℚ) : ℝ) - ((envBusy.time : ℚ) : ℝ) ∧
    control_logic envBusy stEmpty = (none, stEmpty) := by
  have h2 : 0 < get_direction_weight envBusy stEmpty Dir.NS
      + get_direction_weight envBusy stEmpty Dir.EW := by
    rw [wNS_envBusy, wEW_envBusy]; norm_num
  have hrem : ((envBusy.nextSwitch : ℚ) : ℝ) - ((envBusy.time : ℚ) : ℝ) = 30 := by
    norm_num [envBusy]
  have h5 : phase_duration (get_direction_weight envBusy stEmpty Dir.NS)
      (get_direction_weight envBusy stEmpty Dir.NS
        + get_direction_weight envBusy stEmpty Dir.EW)
      ≤ ((envBusy.nextSwitch : ℚ) : ℝ) - ((envBusy.time : ℚ) : ℝ) := by
    rw [wNS_envBusy, wEW_envBusy, pd_busy, hrem]; norm_num
  refine ⟨find_envBusy, h2, rfl, ?_, h5, ?_⟩
  · rw [wNS_envBusy, wEW_envBusy]; norm_num
  · exact control_logic_noop_eq stEmpty find_envBusy h2 rfl h5

/-- C2 (amended): on a tick with no emergency and positive total weight, if
the active phase maps to tracked direction `d` then the engine extends by
exactly `duration[d] - remaining` when `remaining < duration[d]` and emits
no decision at all otherwise (it does not switch); it switches to the
higher-weight direction (EW only on strictly greater weight, so ties go to
NS) exactly when the current phase is a transition phase. -/
theorem claim_C2_extend_or_switch (env : Env) (st : TLState)
    (h : (detectVehicles env).find? (fun u => env.vehicleType u == "emergency") = none)
    (h2 : 0 < get_direction_weight env st Dir.NS + get_direction_weight env st Dir.EW) :
    (∀ d, env.phaseDirection env.currentPhase = some d →
      (((env.nextSwitch : ℚ) : ℝ) - ((env.time : ℚ) : ℝ) <
          pickDir
            (phase_duration (get_direction_weight env st Dir.NS)
              (get_direction_weight env st Dir.NS + get_direction_weight env st Dir.EW))
            (phase_duration (get_direction_weight env st Dir.EW)
              (get_direction_weight env st Dir.NS + get_direction_weight env st Dir.EW)) d →
        control_logic env st =
          (some (Decision.extend
            (pickDir
              (phase_duration (get_direction_weight env st Dir.NS)
                (get_direction_weight env st Dir.NS + get_direction_weight env st Dir.EW))
              (phase_duration (get_direction_weight env st Dir.EW)
                (get_direction_weight env st Dir.NS + get_direction_weight env st Dir.EW)) d -
             (((env.nextSwitch : ℚ) : ℝ) - ((env.time : ℚ) : ℝ)))), st)) ∧
      (pickDir
          (phase_duration (get_direction_weight env st Dir.NS)
            (get_direction_weight env st Dir.NS + get_direction_weight env st Dir.EW))
          (phase_duration (get_direction_weight env st Dir.EW)
            (get_direction_weight env st Dir.NS + get_direction_weight env st Dir.EW)) d ≤
          ((env.nextSwitch : ℚ) : ℝ) - ((env.time : ℚ) : ℝ) →
        control_logic env st = (none, st))) ∧
    (env.phaseDirection env.currentPhase = none →
      control_logic env st =
        (some (Decision.switch
          (if get_direction_weight env st Dir.NS < get_direction_weight env st Dir.EW
           then Dir.EW else Dir.NS)), st)) := by
  refine ⟨fun d h3 => ⟨fun h4 => control_logic_extend_eq st h h2 h3 h4,
                       fun h4 => control_logic_noop_eq st h h2 h3 h4⟩,
          fun h3 => control_logic_transition_eq st h h2 h3⟩

/-- C2 witness (the spec's Scenario D): NS active with 10 s remaining and
`duration[NS] = 25` computed from weights 0.3 vs 0.6 — the engine extends by
exactly 15 s. -/
theorem claim_C2_witness :
    control_logic envShort stEmpty = (some (Decision.extend 15), stEmpty) := by
  have h2 : 0 < get_direction_weight envShort stEmpty Dir.NS
      + get_direction_weight envShort stEmpty Dir.EW := by
    rw [wNS_envShort, wEW_envShort]; norm_num
  have hrem : ((envShort.nextSwitch : ℚ) : ℝ) - ((envShort.time : ℚ) : ℝ) = 10 := by
    norm_num [envShort]
  have h4 : ((envShort.nextSwitch : ℚ) : ℝ) - ((envShort.time : ℚ) : ℝ) <
      pickDir
        (phase_duration (get_direction_weight envShort stEmpty Dir.NS)
          (get_direction_weight envShort stEmpty Dir.NS
            + get_direction_weight envShort stEmpty Dir.EW))
        (phase_duration (get_direction_weight envShort stEmpty Dir.EW)
          (get_direction_weight envShort stEmpty Dir.NS
            + get_direction_weight envShort stEmpty Dir.EW)) Dir.NS := by
    show ((envShort.nextSwitch : ℚ) : ℝ) - ((envShort.time : ℚ) : ℝ) <
      phase_duration (get_direction_weight envShort stEmpty Dir.NS)
        (get_direction_weight envShort stEmpty Dir.NS
          + get_direction_weight envShort stEmpty Dir.EW)
    rw [wNS_envShort, wEW_envShort, pd_busy, hrem]; norm_num
  have happ := ((claim_C2_extend_or_switch envShort stEmpty find_envShort h2).1
    Dir.NS rfl).1 h4
  rw [happ]
  have hv : pickDir
      (phase_duration (get_direction_weight envShort stEmpty Dir.NS)
        (get_direction_weight envShort stEmpty Dir.NS
          + get_direction_weight envShort stEmpty Dir.EW))
      (phase_duration (get_direction_weight envShort stEmpty Dir.EW)
        (get_direction_weight envShort stEmpty Dir.NS
          + get_direction_weight envShort stEmpty Dir.EW)) Dir.NS -
      (((envShort.nextSwitch : ℚ) : ℝ) - ((envShort.time : ℚ) : ℝ)) = 15 := by
    show phase_duration (get_direction_weight envShort stEmpty Dir.NS)
        (get_direction_weight envShort stEmpty Dir.NS
          + get_direction_weight envShort stEmpty Dir.EW) -
        (((envShort.nextSwitch : ℚ) : ℝ) - ((envShort.time : ℚ) : ℝ)) = 15
    rw [wNS_envShort, wEW_envShort, pd_busy, hrem]; norm_num
  rw [hv]

/-- C3: when an in-range vehicle of type `'emergency'` exists, the engine
emits the override decision for the first such vehicle in iteration order
(`List.find?` over `detect_vehicles`), leaves the state untouched, and emits
nothing else that tick — no weights, priorities or durations enter the
result. -/
theorem claim_C3_emergency_preempts (env : Env) (st : TLState) (v : String)
    (h : (detectVehicles env).find? (fun u => env.vehicleType u == "emergency") = some v) :
    control_logic env st = (some (Decision.emergency v), st) ∧
    v ∈ detectVehicles env ∧ env.vehicleType v = "emergency" := by
  refine ⟨control_logic_emergency_eq st h, List.mem_of_find?_eq_some h, ?_⟩
  have hp := List.find?_some h
  exact eq_of_beq hp

/-- C3 witness (the spec's Scenario C): the ambulance `amb` behind a car in
NS with an EW backlog preempts the tick. -/
theorem claim_C3_witness :
    control_logic envEmerg stEmpty = (some (Decision.emergency ("amb")), stEmpty) ∧
    ("amb") ∈ detectVehicles envEmerg ∧ envEmerg.vehicleType ("amb") = "emergency" :=
  claim_C3_emergency_preempts envEmerg stEmpty ("amb") find_envEmerg

/-- C4: on a tick without an emergency, a zero total weight short-circuits
the controller (no decision, no division); otherwise each direction's
duration is `clamp(30 * (0.5 + weight/total), 15, 60)` — and that clamp lies
in `[15, 60]` for every input, in particular for all normalized weights in
`[0, 1]`. -/
theorem claim_C4_zero_total_and_bounds :
    (∀ env st, (detectVehicles env).find? (fun u => env.vehicleType u == "emergency") = none →
      get_direction_weight env st Dir.NS + get_direction_weight env st Dir.EW = 0 →
      control_logic env st = (none, st)) ∧
    (∀ w total : ℝ, phase_duration w total = max 15 (min 60 (30 * (0.5 + w / total)))) ∧
    (∀ w total : ℝ, 15 ≤ phase_duration w total ∧ phase_duration w total ≤ 60) := by
  refine ⟨fun env st h h0 => control_logic_zero_eq st h (by rw [h0]; exact lt_irrefl 0),
    fun w total => rfl, fun w total => ?_⟩
  unfold phase_duration
  exact ⟨le_max_left _ _, max_le (by norm_num) (min_le_left _ _)⟩

/-- C4 witness: an empty tick gives total weight 0 and no decision; the
clamp at normalized weight 0.5 of a unit total lies in `[15, 60]`. -/
theorem claim_C4_witness :
    control_logic envNone stEmpty = (none, stEmpty) ∧
    15 ≤ phase_duration 0.5 1 ∧ phase_duration 0.5 1 ≤ 60 := by
  refine ⟨claim_C4_zero_total_and_bounds.1 envNone stEmpty rfl ?_,
    (claim_C4_zero_total_and_bounds.2.2 0.5 1).1,
    (claim_C4_zero_total_and_bounds.2.2 0.5 1).2⟩
  rw [gdw_detect_nil stEmpty Dir.NS detect_envNone,
    gdw_detect_nil stEmpty Dir.EW detect_envNone]
  norm_num

/-- C5: `calculate_priority` returns 0 for an unknown vehicle or one with no
recorded crossing; otherwise it is exactly
`0.4·log(1+n) + 0.3·recency + 0.3·consistency`, where the consistency term
is the stored-pattern maximum divided by `1 + min |now − peak_start|` when
patterns exist and the neutral `0.5` otherwise; under the advancing-clock
invariant (`now ≥` the last crossing time, spec §3) the result is
non-negative (finiteness is inherent in the real-valued model). -/
theorem claim_C5_priority_formula (env : Env) (st : TLState) (v : String) :
    (st.vehicles v = none → calculate_priority env st v = 0) ∧
    (∀ r, st.vehicles v = some r → r.crossings = [] → calculate_priority env st v = 0) ∧
    (∀ r, st.vehicles v = some r → r.crossings ≠ [] →
      calculate_priority env st v =
        0.4 * Real.log (1 + (r.crossings.length : ℝ)) +
        0.3 * recencyFn ((env.time : ℚ) : ℝ) ((lastCross r : ℚ) : ℝ) +
        0.3 * (if r.patterns = [] then 0.5
          else (listMaxR (r.patterns.map Pattern.consistency)) /
            (1 + listMinR (r.patterns.map fun p =>
              |((env.time : ℚ) : ℝ) - ((p.peak_start : ℚ) : ℝ)|)))) ∧
    ((∀ r, st.vehicles v = some r → r.crossings ≠ [] → lastCross r ≤ env.time) →
      0 ≤ calculate_priority env st v) := by
  refine ⟨fun h => calculate_priority_none h, fun r h hc => calculate_priority_empty h hc,
    fun r h hc => ?_, fun h => calculate_priority_nonneg env st v h⟩
  rw [calculate_priority_eq h hc]
  simp only [frequency_weight, recency_weight, consistency_weight]

/-- C5 witness: one vehicle with a single crossing at time 0, evaluated at
time 0: priority is `0.4·log 2 + 0.3·1·recency + 0.15` shaped as claimed and
non-negative. -/
theorem claim_C5_witness :
    calculate_priority envOne stOne ("v1") =
      0.4 * Real.log 2 + 0.3 * recencyFn 0 0 + 0.3 * 0.5 ∧
    0 ≤ calculate_priority envOne stOne ("v1") := by
  have hsome : stOne.vehicles ("v1") = some ⟨[(0, Dir.NS)], []⟩ := rfl
  have h := claim_C5_priority_formula envOne stOne ("v1")
  constructor
  · have h3 := h.2.2.1 ⟨[(0, Dir.NS)], []⟩ hsome (by simp)
    have hl : lastCross ⟨[(0, Dir.NS)], []⟩ = 0 := rfl
    have ht : envOne.time = 0 := rfl
    rw [h3, hl, ht]
    norm_num
  · refine h.2.2.2 ?_
    intro r hr hc
    rw [hsome] at hr
    rw [← Option.some.inj hr]
    exact le_refl 0

/-- C6: the direction weight is the sum of the priorities of the matching
in-range vehicles plus `0.3` per such vehicle, multiplied by `1.5` exactly
when any in-range vehicle — in any direction, the boost is global per tick —
has a non-empty pattern set; it is 0 on an empty tick and non-negative under
the advancing-clock invariant. -/
theorem claim_C6_direction_weight (env : Env) (st : TLState) (d : Dir) :
    (get_direction_weight env st d =
      (if (detectVehicles env).any (fun v => vehHasPatterns st v)
       then 1.5 * ((((detectVehicles env).filter fun v =>
              env.approachDirection v == d).map (calculate_priority env st)).sum
            + 0.3 * ((((detectVehicles env).filter fun v =>
              env.approachDirection v == d).length : ℕ) : ℝ))
       else (((detectVehicles env).filter fun v =>
              env.approachDirection v == d).map (calculate_priority env st)).sum
            + 0.3 * ((((detectVehicles env).filter fun v =>
              env.approachDirection v == d).length : ℕ) : ℝ))) ∧
    (detectVehicles env = [] → get_direction_weight env st d = 0) ∧
    (timeConsistent env st → 0 ≤ get_direction_weight env st d) := by
  refine ⟨?_, fun h => gdw_detect_nil st d h, fun h => gdw_nonneg env st d h⟩
  simp only [get_direction_weight, density_weight, time_boost_factor]
  split_ifs with hb
  · ring
  · rfl

/-- C6 witness: weight 0 on the empty tick, and non-negative on a tick whose
single in-range vehicle has one recorded crossing not in the future. -/
theorem claim_C6_witness :
    get_direction_weight envNone stEmpty Dir.NS = 0 ∧
    0 ≤ get_direction_weight envOne stOne Dir.NS := by
  refine ⟨(claim_C6_direction_weight envNone stEmpty Dir.NS).2.1 detect_envNone,
    (claim_C6_direction_weight envOne stOne Dir.NS).2.2 ?_⟩
  intro v r hv hc
  by_cases h : v = "v1"
  · subst h
    have hsome : stOne.vehicles ("v1") = some ⟨[(0, Dir.NS)], []⟩ := rfl
    rw [hsome] at hv
    rw [← Option.some.inj hv]
    exact le_refl 0
  · have hn : stOne.vehicles v = none := by simp [stOne, setRecord, stEmpty, h]
    rw [hn] at hv
    exact absurd hv (by simp)

/-- C7: `_detect_patterns` replaces the vehicle's pattern list wholesale with
one pattern per DBSCAN cluster of the full timestamp sequence; every cluster
has at least 3 member timestamps; every cluster member is a non-noise point;
and each pattern stores the cluster's minimum, maximum and the consistency
`1 / (population std + 1e-6)`. -/
theorem claim_C7_pattern_detection :
    (∀ st v, (recOf (detect_patterns st v) v).patterns =
      (dbscanClusters ((recOf st v).crossings.map Prod.fst)).map mkPattern) ∧
    (∀ ts c, c ∈ dbscanClusters ts → 3 ≤ c.length) ∧
    (∀ ts c, c ∈ dbscanClusters ts → ∀ x ∈ c,
      ∃ j, j < ts.length ∧ x = ts.getD j 0 ∧ noisePoint ts j = false) ∧
    (∀ c, (mkPattern c).peak_start = listMinQ c ∧ (mkPattern c).peak_end = listMaxQ c ∧
      (mkPattern c).consistency = 1 / (Real.sqrt ((popVar c : ℚ) : ℝ) + 1e-6)) := by
  refine ⟨fun st v => by rw [detect_patterns_self], ?_, ?_, fun c => ⟨rfl, rfl, rfl⟩⟩
  · intro ts c hc
    rcases List.mem_map.1 hc with ⟨i, hi, rfl⟩
    rw [List.length_map]
    exact clusterOf_length hi
  · intro ts c hc x hx
    rcases List.mem_map.1 hc with ⟨i, hi, rfl⟩
    rcases List.mem_map.1 hx with ⟨j, hj, rfl⟩
    obtain ⟨hjlen, k, hklen, hkcore, hdist⟩ := clusterOf_member_near_core hi hj
    exact ⟨j, hjlen, rfl, not_noise_of_near_core hklen hkcore hdist⟩

/-- C7 witness: the timestamps `[0, 100, 200]` form a single DBSCAN cluster
(radius 300, minimum size 3), of size exactly 3. -/
theorem claim_C7_witness :
    ([0, 100, 200] : List ℚ) ∈ dbscanClusters [0, 100, 200] ∧
    3 ≤ ([0, 100, 200] : List ℚ).length := by
  have hm : ([0, 100, 200] : List ℚ) ∈ dbscanClusters [0, 100, 200] := by
    rw [dbscanW]
    exact List.mem_singleton.2 rfl
  exact ⟨hm, claim_C7_pattern_detection.2.1 [0, 100, 200] [0, 100, 200] hm⟩

/-- C8: `update_vehicle_history` appends exactly one crossing to the
vehicle's sequence (never reordering or truncating), leaves every other
record untouched, and triggers pattern recomputation exactly when the
updated count is a (positive) multiple of 5 — so a vehicle with fewer than 5
crossings keeps its previous (initially empty) pattern list.  The other
operations never touch a crossing sequence: `_detect_patterns` preserves all
crossings and `control_logic` returns the store unchanged. -/
theorem claim_C8_append_only (env : Env) (st : TLState) (v : String) :
    ((recOf (update_vehicle_history env st v) v).crossings
      = (recOf st v).crossings ++ [(env.time, env.approachDirection v)]) ∧
    (∀ w, w ≠ v → (update_vehicle_history env st v).vehicles w = st.vehicles w) ∧
    ((recOf (update_vehicle_history env st v) v).patterns =
      if ((recOf st v).crossings.length + 1) % 5 = 0
      then (dbscanClusters (((recOf st v).crossings
          ++ [(env.time, env.approachDirection v)]).map Prod.fst)).map mkPattern
      else (recOf st v).patterns) ∧
    (∀ w, (recOf (detect_patterns st v) w).crossings = (recOf st w).crossings) ∧
    (∀ env' st', (control_logic env' st').2 = st') :=
  ⟨update_crossings_self env st v, fun w hw => update_other env st v w hw,
   update_patterns_self env st v, fun w => detect_patterns_crossings st v w,
   control_logic_snd⟩

/-- C8 witness: recording the first crossing of a fresh vehicle appends one
pair, leaves other vehicles absent, and (1 % 5 ≠ 0) computes no patterns. -/
theorem claim_C8_witness :
    (recOf (update_vehicle_history envOne stEmpty ("v1")) ("v1")).crossings
      = [((0:ℚ), Dir.NS)] ∧
    (update_vehicle_history envOne stEmpty ("v1")).vehicles ("v2") = none ∧
    (recOf (update_vehicle_history envOne stEmpty ("v1")) ("v1")).patterns = [] := by
  have h := claim_C8_append_only envOne stEmpty ("v1")
  refine ⟨?_, ?_, ?_⟩
  · rw [h.1]
    rfl
  · rw [h.2.1 ("v2") (by decide)]
    rfl
  · rw [h.2.2.1]
    rfl

/-- C9: for `now ≥ lastCrossingTime` the recency factor lies in `(0, 1]`,
equals 1 exactly at `now = lastCrossingTime`, and strictly decreases as
`now` grows. -/
theorem claim_C9_recency (last now now2 : ℝ) (h : last ≤ now) :
    (0 < recencyFn now last ∧ recencyFn now last ≤ 1) ∧
    (now = last → recencyFn now last = 1) ∧
    (now < now2 → recencyFn now2 last < recencyFn now last) := by
  have h0 : (0:ℝ) ≤ (now - last) / 3600 := by
    have := sub_nonneg.mpr h
    positivity
  have hd : (0:ℝ) < 1 + (now - last) / 3600 := by linarith
  refine ⟨⟨recencyFn_pos h, ?_⟩, ?_, ?_⟩
  · unfold recencyFn
    rw [div_le_one hd]
    linarith
  · intro he
    unfold recencyFn
    rw [he]
    simp
  · intro hlt
    unfold recencyFn
    have hlt2 : 1 + (now - last) / 3600 < 1 + (now2 - last) / 3600 := by
      have : (now - last) / 3600 < (now2 - last) / 3600 := by linarith
      linarith
    exact one_div_lt_one_div_of_lt hd hlt2

/-- C9 witness: at `now = last = 0` recency is exactly 1 (and positive), and
one second later it has strictly decreased. -/
theorem claim_C9_witness :
    (0 < recencyFn 0 0 ∧ recencyFn 0 0 ≤ 1) ∧ recencyFn 0 0 = 1 ∧
    recencyFn 1 0 < recencyFn 0 0 := by
  have h := claim_C9_recency 0 0 1 (le_refl 0)
  exact ⟨h.1, h.2.1 rfl, h.2.2 zero_lt_one⟩

theorem gdwE_error (env : Env) (st : TLState) (d : Dir)
    (h : detectVehicles env ≠ []) :
    get_direction_weightE env st d
      = Except.error ("AttributeError: get_approach_direction") := by
  simp only [get_direction_weightE]
  rw [if_neg h]
  rfl

theorem control_logicE_ok (env : Env) (st : TLState)
    (h : detectVehicles env = []) : control_logicE env st = Except.ok none := by
  have hf : (detectVehicles env).find? (fun v => env.vehicleType v == "emergency") = none := by
    rw [h]
    rfl
  have hw : ∀ d, get_direction_weightE env st d
      = Except.ok (get_direction_weight env st d) := by
    intro d
    simp only [get_direction_weightE]
    rw [if_pos h]
  simp only [control_logicE, hf, hw]
  rw [gdw_detect_nil st Dir.NS h, gdw_detect_nil st Dir.EW h]
  rw [if_neg (by norm_num)]

/-- C10: the four methods `get_approach_direction`, `handle_emergency`,
`get_current_direction` and `set_phase_for_direction` are absent from the
class's method table; consequently, in the attribute-dispatch reading, any
tick with at least one in-range vehicle aborts with an `AttributeError`
(from `handle_emergency` when an emergency vehicle is found first, otherwise
from `get_approach_direction` inside the weight computation), and a tick
completes — with no decision — only when the detected-vehicle set is
empty. -/
theorem claim_C10_undefined_methods :
    (("get_approach_direction" ∈ definedMethods → False) ∧
     ("handle_emergency" ∈ definedMethods → False) ∧
     ("get_current_direction" ∈ definedMethods → False) ∧
     ("set_phase_for_direction" ∈ definedMethods → False)) ∧
    (∀ env st d, detectVehicles env ≠ [] →
      get_direction_weightE env st d
        = Except.error ("AttributeError: get_approach_direction")) ∧
    (∀ env st, detectVehicles env ≠ [] →
      control_logicE env st = Except.error ("AttributeError: handle_emergency") ∨
      control_logicE env st = Except.error ("AttributeError: get_approach_direction")) ∧
    (∀ env st, detectVehicles env = [] → control_logicE env st = Except.ok none) := by
  refine ⟨by decide, gdwE_error, ?_, control_logicE_ok⟩
  intro env st h
  cases hf : (detectVehicles env).find? (fun v => env.vehicleType v == "emergency") with
  | some v =>
    left
    simp only [control_logicE, hf]
    rfl
  | none =>
    right
    simp only [control_logicE, hf, gdwE_error env st Dir.NS h]

/-- C10 witness: a tick with one in-range vehicle aborts with an
`AttributeError`, while the empty tick completes with no decision. -/
theorem claim_C10_witness :
    (control_logicE envOne stEmpty = Except.error ("AttributeError: handle_emergency") ∨
     control_logicE envOne stEmpty
       = Except.error ("AttributeError: get_approach_direction")) ∧
    control_logicE envNone stEmpty = Except.ok none :=
  ⟨claim_C10_undefined_methods.2.2.1 envOne stEmpty (by decide),
   claim_C10_undefined_methods.2.2.2 envNone stEmpty detect_envNone⟩

end PlusPath
